import Mathlib

/-!
# Verification of the `Space` compositing core (`src/desktop/space.rs`)

This file gives a shallow embedding of the space / damage-tracking /
output-composition subsystem of the repository and proves (or refutes)
the frozen claims about it.

Conventions:
* Pure Rust functions become Lean functions on explicit state values.
* The space-scoped side tables (`WindowState`, `LayerState`, `OutputState`)
  are flattened into the model records, since all claims concern a single
  space.
* Machine integers (`i32`) are modelled as `Int`; none of the verified
  code paths perform arithmetic anywhere near overflow.
* Externally-owned collaborators (the renderer, surface trees, layer maps)
  are modelled as data carried by the records, introduced where needed with
  a `Modelled from the spec:` doc comment.
-/

namespace Smithay

/-- A logical-coordinate point (`Point<i32, Logical>`). -/
structure Pt where
  x : Int
  y : Int
deriving DecidableEq, Repr

/-- A logical-coordinate size (`Size<i32, Logical>`). -/
structure Sz where
  w : Int
  h : Int
deriving DecidableEq, Repr

/-- An axis-aligned rectangle (`Rectangle<i32, Logical>`). -/
structure Rect where
  loc : Pt
  size : Sz
deriving DecidableEq, Repr

/-- Pointwise addition of points (`Point + Point`). -/
def padd (a b : Pt) : Pt := ⟨a.x + b.x, a.y + b.y⟩

/-- `wgeo.loc += loc` on a rectangle: translate a rectangle by a point. -/
def rtranslate (r : Rect) (p : Pt) : Rect := ⟨padd r.loc p, r.size⟩

/-- Modelled from the spec: the `Rectangle::overlaps` test of the `utils`
geometry module (not under `src/`): two rectangles overlap when their
interiors intersect, i.e. each one starts before the other ends on both
axes. -/
def overlaps (a b : Rect) : Prop :=
  a.loc.x < b.loc.x + b.size.w ∧ b.loc.x < a.loc.x + a.size.w ∧
  a.loc.y < b.loc.y + b.size.h ∧ b.loc.y < a.loc.y + a.size.h

instance (a b : Rect) : Decidable (overlaps a b) := by
  unfold overlaps; exact inferInstance

/-- `a` covers `b`: every point of `b` lies in `a` (coordinatewise
inclusion). -/
def coversRect (a b : Rect) : Prop :=
  a.loc.x ≤ b.loc.x ∧ b.loc.x + b.size.w ≤ a.loc.x + a.size.w ∧
  a.loc.y ≤ b.loc.y ∧ b.loc.y + b.size.h ≤ a.loc.y + a.size.h

instance (a b : Rect) : Decidable (coversRect a b) := by
  unfold coversRect; exact inferInstance

/-- Modelled from the spec: `Rectangle::contains_rect` as used by the damage
reduction — "remove any rectangle fully contained in *another* surviving
rectangle".  A rectangle does not contain itself (in the source this is a
consequence of the strict far-corner point test), which the containment-
removal loop of `render_output` relies on. -/
def containsRect (a b : Rect) : Prop := coversRect a b ∧ b ≠ a

instance (a b : Rect) : Decidable (containsRect a b) := by
  unfold containsRect; exact inferInstance

/-- Modelled from the spec: `Rectangle::merge` — the smallest enclosing
rectangle of two rectangles. -/
def merge (a b : Rect) : Rect :=
  let x := min a.loc.x b.loc.x
  let y := min a.loc.y b.loc.y
  ⟨⟨x, y⟩, ⟨max (a.loc.x + a.size.w) (b.loc.x + b.size.w) - x,
           max (a.loc.y + a.size.h) (b.loc.y + b.size.h) - y⟩⟩

/-! ## Damage reduction (`render_output`, the "Optimize the damage" block)

The five stages of `space.rs` lines 520–538: `dedup`, the two `retain`
filters, the containment-removal loop, and the single merging fold. -/

/-- Helper for `dedupConsec`: `prev` is the last rectangle kept. -/
def dedupAux (prev : Rect) : List Rect → List Rect
  | [] => []
  | b :: rest => if prev = b then dedupAux prev rest else b :: dedupAux b rest

/-- `Vec::dedup`: remove consecutive repeated rectangles, keeping the first
of each run. -/
def dedupConsec : List Rect → List Rect
  | [] => []
  | a :: rest => a :: dedupAux a rest

/-- One step of the merging fold: find the first accumulated rectangle the
new one overlaps and replace it by their merge; otherwise append
(`new_damage.iter_mut().find(...)` then `*existing = existing.merge(rect)`,
else `new_damage.push(rect)`). -/
def mergeStep : List Rect → Rect → List Rect
  | [], r => [r]
  | a :: rest, r =>
    if overlaps r a then merge a r :: rest else a :: mergeStep rest r

/-- The merging fold over the filtered damage list
(`damage.into_iter().fold(Vec::new(), ...)`). -/
def mergeFold (l : List Rect) : List Rect := l.foldl mergeStep []

/-- The containment-removal loop: iterate over a snapshot of the list; for
each rectangle still present, drop every rectangle it (properly) contains
(`for rect in damage.clone().iter() { if damage.contains(rect) {
damage.retain(|other| !rect.contains_rect(*other)); } }`). -/
def dropContained (l : List Rect) : List Rect :=
  l.foldl
    (fun d r =>
      if r ∈ d then d.filter (fun other => ¬ containsRect r other) else d)
    l

/-- The damage list right before the merging fold: `dedup`, keep only
rectangles overlapping the output, keep only positive sizes, then remove
contained rectangles. -/
def preMerge (outGeo : Rect) (l : List Rect) : List Rect :=
  dropContained
    (((dedupConsec l).filter (fun r => decide (overlaps r outGeo))).filter
      (fun r => decide (0 < r.size.h ∧ 0 < r.size.w)))

/-- The complete damage-reduction step of `render_output`
(`space.rs` lines 520–538). -/
def reduce (outGeo : Rect) (l : List Rect) : List Rect :=
  mergeFold (preMerge outGeo l)

/-! ## Data model -/

/-- `ToplevelId`: tagged key distinguishing windows (`Xdg`) from shell
layers (`Layer`) in the shared damage map. -/
inductive TId
  | xdg (n : Nat)
  | layer (n : Nat)
deriving DecidableEq, Repr

/-- Modelled from the spec: one node of a window's surface tree as visited
by `with_surface_tree_downward` (the traversal primitive lives in the
`wayland::compositor` module, not under `src/`), listed in traversal
order.  `size` is the committed buffer size (`None` if the surface never
committed a buffer), `rel` the accumulated subsurface offset relative to
the window location, and `underMapped` records that every ancestor carries
rendering state (the enter/leave traversal of `refresh` descends only into
such nodes, while its no-overlap branch visits every node). -/
structure SurfM where
  sid : Nat
  size : Option Sz
  rel : Pt
  underMapped : Bool
deriving DecidableEq, Repr

/-- A mapped window together with its space-scoped `WindowState`
(`location`, `drawn`) and the externally-owned data the core reads from it
(bounding boxes, accumulated damage, surface tree, liveness, activation). -/
structure WindowM where
  wid : Nat
  alive : Bool
  bbox : Rect
  bboxWithPopups : Rect
  accDamage : List Rect
  surfaces : List SurfM
  location : Pt
  drawn : Bool
  activated : Bool
deriving DecidableEq, Repr

/-- The four wlr-layer-shell layers, in paint order. -/
inductive LKind
  | background
  | bottom
  | top
  | overlay
deriving DecidableEq, Repr

/-- A shell layer of an output's layer map, together with its space-scoped
`LayerState` (`drawn`), its absolute geometry (`layer_map.layer_geometry`)
and accumulated damage. -/
structure LayerM where
  lid : Nat
  kind : LKind
  geo : Rect
  accDamage : List Rect
  drawn : Bool
deriving DecidableEq, Repr

/-- An output together with its space-scoped `OutputState`.  `modeSize` is
the logical size derived from the output's current mode and render scale
(`None` when the output has no active mode); the floating-point scale
arithmetic itself is external and not modelled.  `layers` is the output's
layer map (`layer_map_for_output`). -/
structure OutputM where
  oid : Nat
  modeSize : Option Sz
  location : Pt
  surfaces : List Nat
  last_state : List (TId × Rect)
  old_damage : List (List Rect)
  layers : List LayerM
deriving DecidableEq, Repr

/-- The `Space`: the ordered window registry (z-order, back to front) and
the mapped outputs. -/
structure SpaceM where
  windows : List WindowM
  outputs : List OutputM
deriving DecidableEq, Repr

/-- `window_rect`: the window's `bbox` translated by its space-scoped
location. -/
def windowRect (w : WindowM) : Rect := rtranslate w.bbox w.location

/-- `window_rect_with_popups`: like `windowRect` but including popups. -/
def windowRectWithPopups (w : WindowM) : Rect :=
  rtranslate w.bboxWithPopups w.location

/-- `Space::output_geometry`: the output rectangle, `None` when the output
has no active mode. -/
def outputGeo (o : OutputM) : Option Rect :=
  o.modeSize.map (fun s => ⟨o.location, s⟩)

/-- The output rectangle with the `unwrap_or(empty)` default used by
`refresh`; `outputs_for_window` instead `unwrap()`s, which panics without a
mode — theorems about it therefore assume every mapped output has one. -/
def outGeoD (o : OutputM) : Rect := (outputGeo o).getD ⟨⟨0, 0⟩, ⟨0, 0⟩⟩

/-! ## Space registry operations -/

/-- `Space::insert_window`: `IndexSet::insert` (which leaves an already
present window at its old position) followed by activating the window and
deactivating all others. -/
def insertWindow (s : SpaceM) (w : WindowM) : SpaceM :=
  let ws :=
    if s.windows.any (fun v => v.wid == w.wid) then s.windows
    else s.windows ++ [w]
  { s with
    windows := ws.map (fun v =>
      if v.wid = w.wid then { v with activated := true }
      else { v with activated := false }) }

/-- `Space::map_window`: insert (or keep) the window, then set its
space-scoped location. -/
def mapWindow (s : SpaceM) (w : WindowM) (p : Pt) : SpaceM :=
  let s1 := insertWindow s w
  { s1 with
    windows := s1.windows.map (fun v =>
      if v.wid = w.wid then { v with location := p } else v) }

/-- `Space::raise_window`: `shift_remove` then re-insert when the window
was mapped. -/
def raiseWindow (s : SpaceM) (w : WindowM) : SpaceM :=
  if s.windows.any (fun v => v.wid == w.wid) then
    insertWindow { s with windows := s.windows.filter (fun v => v.wid ≠ w.wid) } w
  else s

/-- Overlap area of two rectangles, as computed by the sort comparator
inside `Space::outputs_for_window` (x-overlap times y-overlap, clamped at
zero). -/
def overlapArea (r1 r2 : Rect) : Int :=
  max 0 (min (r1.loc.x + r1.size.w) (r2.loc.x + r2.size.w) - max r1.loc.x r2.loc.x) *
  max 0 (min (r1.loc.y + r1.size.h) (r2.loc.y + r2.size.h) - max r1.loc.y r2.loc.y)

/-- `Space::outputs_for_window`: empty for an unmapped window, otherwise
the outputs overlapping the window's rectangle, stably sorted in ascending
order of overlap area. -/
def outputsForWindow (s : SpaceM) (w : WindowM) : List OutputM :=
  if ¬ s.windows.any (fun v => v.wid == w.wid) then []
  else
    let wgeo := windowRect w
    let os := s.outputs.filter (fun o => decide (overlaps wgeo (outGeoD o)))
    os.mergeSort (fun o1 o2 =>
      decide (overlapArea (outGeoD o1) wgeo ≤ overlapArea (outGeoD o2) wgeo))

/-! ## Per-entity damage (`render_output`, lines 440–505) -/

/-- `IndexMap::get` on the `last_state` map, as an association-list
lookup. -/
def lookupTid (last : List (TId × Rect)) (t : TId) : Option Rect :=
  (last.find? (fun p => p.1 == t)).map (fun p => p.2)

/-- Offset a list of entity-local damage rectangles by a screen location
(`rect.loc += loc`). -/
def offsetDamage (dmg : List Rect) (p : Pt) : List Rect :=
  dmg.map (fun r => { r with loc := padd r.loc p })

/-- The per-window damage step: `old_geo.map(|g| g != geo).unwrap_or(false)`
selects the move/resize branch (old and new rectangle) only when a
`last_state` entry is present *and* different; otherwise the window's
accumulated damage, offset by its location, is used. -/
def windowDamage (last : List (TId × Rect)) (w : WindowM) : List Rect :=
  let geo := windowRectWithPopups w
  match lookupTid last (TId.xdg w.wid) with
  | some og =>
    if og ≠ geo then [og, geo] else offsetDamage w.accDamage w.location
  | none => offsetDamage w.accDamage w.location

/-- The per-layer damage step, analogous to `windowDamage` with the layer
geometry's location as offset. -/
def layerDamage (last : List (TId × Rect)) (l : LayerM) : List Rect :=
  match lookupTid last (TId.layer l.lid) with
  | some og =>
    if og ≠ l.geo then [og, l.geo] else offsetDamage l.accDamage l.geo.loc
  | none => offsetDamage l.accDamage l.geo.loc

/-- Disappearance damage: the last-known rectangles of `last_state` entries
whose toplevel id is no longer among the mapped windows or layers. -/
def goneDamage (last : List (TId × Rect)) (ws : List WindowM) (ls : List LayerM) :
    List Rect :=
  (last.filter (fun p =>
    !(ws.any (fun w => TId.xdg w.wid == p.1)) &&
    !(ls.any (fun l => TId.layer l.lid == p.1)))).map (fun p => p.2)

/-- This frame's complete new damage: disappearance damage, then per-window
damage (registry order), then per-layer damage. -/
def newDamage (s : SpaceM) (o : OutputM) : List Rect :=
  goneDamage o.last_state s.windows o.layers
    ++ s.windows.flatMap (windowDamage o.last_state)
    ++ o.layers.flatMap (layerDamage o.last_state)

/-- Buffer-age composition (`space.rs` lines 508–517): with a usable age the
history is truncated to `age` entries and flattened into the damage;
otherwise the damage becomes the whole output rectangle.  Returns the
composed damage together with the (possibly truncated) history. -/
def composeDamage (age : Nat) (outGeo : Rect) (old : List (List Rect))
    (nd : List Rect) : List Rect × List (List Rect) :=
  if 0 < age ∧ age ≤ old.length then
    (nd ++ (old.take age).flatten, old.take age)
  else
    ([outGeo], old)

/-- The reduced damage set `render_output` would paint with (`None` when the
output has no active mode). -/
def reducedDamage (s : SpaceM) (o : OutputM) (age : Nat) : Option (List Rect) :=
  (outputGeo o).map (fun g =>
    reduce g (composeDamage age g o.old_damage (newDamage s o)).1)

/-! ## Render pass -/

/-- `layer_map.layers_on(kind)`. -/
def layersOn (o : OutputM) (k : LKind) : List LayerM :=
  o.layers.filter (fun l => l.kind == k)

/-- The entities the render pass draws, in paint order (background/bottom
layers, windows, top/overlay layers), keeping only those whose rectangle
overlaps some damage rectangle. -/
def drawTargets (s : SpaceM) (o : OutputM) (damage : List Rect) : List TId :=
  ((layersOn o .background ++ layersOn o .bottom).filter
      (fun l => damage.any (fun g => decide (overlaps l.geo g)))).map
    (fun l => TId.layer l.lid)
  ++ (s.windows.filter
      (fun w => damage.any (fun g => decide (overlaps (windowRectWithPopups w) g)))).map
    (fun w => TId.xdg w.wid)
  ++ ((layersOn o .top ++ layersOn o .overlay).filter
      (fun l => damage.any (fun g => decide (overlaps l.geo g)))).map
    (fun l => TId.layer l.lid)

/-- Set the space-scoped `drawn` flag of the given entities. -/
def markDrawn (ids : List TId) (s : SpaceM) (o : OutputM) : SpaceM × OutputM :=
  ({ s with windows := s.windows.map (fun w =>
      if TId.xdg w.wid ∈ ids then { w with drawn := true } else w) },
   { o with layers := o.layers.map (fun l =>
      if TId.layer l.lid ∈ ids then { l with drawn := true } else l) })

/-- The `last_state` snapshot captured after a successful render: every
window's rectangle (with popups) and every layer's geometry. -/
def snapshotState (s : SpaceM) (o : OutputM) : List (TId × Rect) :=
  s.windows.map (fun w => (TId.xdg w.wid, windowRectWithPopups w))
    ++ o.layers.map (fun l => (TId.layer l.lid, l.geo))

/-- `RenderError`. -/
inductive RErr
  | rendering (e : Nat)
  | outputNoMode
deriving DecidableEq, Repr

/-- `Space::render_output`.  The external renderer is modelled by `rfail`:
`none` means the whole render closure succeeds; `some (k, e)` means the
`k`-th draw call fails with renderer error `e` (`k = 0`: already the
initial clear fails), so the first `k` entities were drawn before the
failure.  Returns the result together with the updated space (drawn flags)
and output state. -/
def renderOutput (s : SpaceM) (o : OutputM) (age : Nat)
    (rfail : Option (Nat × Nat)) : Except RErr Bool × SpaceM × OutputM :=
  match outputGeo o with
  | none => (.error .outputNoMode, s, o)
  | some outGeo =>
    let nd := newDamage s o
    let ch := composeDamage age outGeo o.old_damage nd
    let damage := reduce outGeo ch.1
    if damage = [] then
      (.ok false, s, { o with old_damage := ch.2 })
    else
      match rfail with
      | some ke =>
        let so := markDrawn ((drawTargets s o damage).take ke.1) s o
        (.error (.rendering ke.2), so.1,
         { so.2 with old_damage := [], last_state := [] })
      | none =>
        let so := markDrawn (drawTargets s o damage) s o
        (.ok true, so.1,
         { so.2 with last_state := snapshotState s o, old_damage := nd :: ch.2 })

/-! ## Frame notifier (`send_frames`) -/

/-- The window loop of `send_frames`: with `all` set every window is
notified and the flags are left alone (the `all || ...` filter
short-circuits); otherwise each window's `drawn` flag is consulted and
reset, and exactly the previously drawn windows are notified.  The
timestamp is forwarded verbatim to every notification and not modelled. -/
def sendFramesWindows (all : Bool) : List WindowM → List WindowM × List TId
  | [] => ([], [])
  | w :: ws =>
    let r := sendFramesWindows all ws
    if all then (w :: r.1, TId.xdg w.wid :: r.2)
    else if w.drawn then ({ w with drawn := false } :: r.1, TId.xdg w.wid :: r.2)
    else ({ w with drawn := false } :: r.1, r.2)

/-- The per-output layer loop of `send_frames`, analogous to
`sendFramesWindows`. -/
def sendFramesLayers (all : Bool) : List LayerM → List LayerM × List TId
  | [] => ([], [])
  | l :: ls =>
    let r := sendFramesLayers all ls
    if all then (l :: r.1, TId.layer l.lid :: r.2)
    else if l.drawn then ({ l with drawn := false } :: r.1, TId.layer l.lid :: r.2)
    else ({ l with drawn := false } :: r.1, r.2)

/-- `Space::send_frames`: first all windows, then, per mapped output, the
layers of its layer map.  Returns the new space and the notified toplevel
ids in notification order. -/
def sendFrames (s : SpaceM) (all : Bool) : SpaceM × List TId :=
  ({ s with
      windows := (sendFramesWindows all s.windows).1,
      outputs := s.outputs.map (fun o =>
        { o with layers := (sendFramesLayers all o.layers).1 }) },
   (sendFramesWindows all s.windows).2
     ++ s.outputs.flatMap (fun o => (sendFramesLayers all o.layers).2))

/-! ## Membership tracker (`refresh`) -/

/-- An enter or leave notification for a surface on an output. -/
inductive Ev
  | enter (oid sid : Nat)
  | leave (oid sid : Nat)
deriving DecidableEq, Repr

/-- Send leave for a surface if it is currently recorded on the output and
remove it (`output.leave` + `surfaces.retain(|s| s != wl_surface)`). -/
def leaveIfEntered (oid : Nat) (acc : List Nat × List Ev) (sid : Nat) :
    List Nat × List Ev :=
  if sid ∈ acc.1 then
    (acc.1.filter (fun x => x ≠ sid), acc.2 ++ [Ev.leave oid sid])
  else acc

/-- The enter/leave decision for one visited surface in the overlapping
branch of `refresh`: a surface with a buffer whose absolute rectangle
overlaps the output is entered if not already recorded; otherwise (no
overlap, or no buffer) it is left if recorded. -/
def processSurface (oid : Nat) (oGeo : Rect) (wloc : Pt)
    (acc : List Nat × List Ev) (sf : SurfM) : List Nat × List Ev :=
  match sf.size with
  | some sz =>
    if overlaps oGeo ⟨padd wloc sf.rel, sz⟩ then
      if sf.sid ∈ acc.1 then acc
      else (acc.1 ++ [sf.sid], acc.2 ++ [Ev.enter oid sf.sid])
    else leaveIfEntered oid acc sf.sid
  | none => leaveIfEntered oid acc sf.sid

/-- One window against one output inside `refresh`: if the window rectangle
does not overlap the output geometry, every surface of the window's tree is
left (without consulting buffers); otherwise the tree is walked and each
visited node entered or left as appropriate. -/
def stepWindowOutput (w : WindowM) (o : OutputM) : OutputM × List Ev :=
  let oGeo := outGeoD o
  if ¬ overlaps oGeo (windowRect w) then
    let r := (w.surfaces.map (fun sf => sf.sid)).foldl (leaveIfEntered o.oid)
      (o.surfaces, [])
    ({ o with surfaces := r.1 }, r.2)
  else
    let r := (w.surfaces.filter (fun sf => sf.underMapped)).foldl
      (processSurface o.oid oGeo w.location) (o.surfaces, [])
    ({ o with surfaces := r.1 }, r.2)

/-- One window of the `refresh` loop: process it against every mapped
output, accumulating events. -/
def stepWindow (ows : List OutputM × List Ev) (w : WindowM) :
    List OutputM × List Ev :=
  let r := ows.1.map (stepWindowOutput w)
  (r.map Prod.fst, ows.2 ++ (r.map Prod.snd).flatten)

/-- The evolution of a single output's state across the window loop of
`refresh`: outputs are processed independently, so the final state of an
output is the left fold of `stepWindowOutput` over the windows. -/
def applyWindows (ws : List WindowM) (o : OutputM) : OutputM :=
  ws.foldl (fun o w => (stepWindowOutput w o).1) o

/-- `Space::refresh`: prune dead windows, prune dead surfaces from every
output's entered set (`sAlive` is the external surface-liveness predicate),
then run the membership tracker for every remaining window against every
output.  Returns the new space and the emitted enter/leave events. -/
def refresh (sAlive : Nat → Bool) (s : SpaceM) : SpaceM × List Ev :=
  let ws := s.windows.filter (fun w => w.alive)
  let outs0 := s.outputs.map (fun o =>
    { o with surfaces := o.surfaces.filter sAlive })
  let r := ws.foldl stepWindow (outs0, [])
  ({ s with windows := ws, outputs := r.1 }, r.2)

/-! # Theorems -/

/-! ## Covering lemmas for the damage reduction -/

theorem coversRect_refl (a : Rect) : coversRect a a := by
  unfold coversRect; omega

theorem coversRect_trans {a b c : Rect} (hab : coversRect a b)
    (hbc : coversRect b c) : coversRect a c := by
  unfold coversRect at *; omega

theorem coversRect_merge_left (a b : Rect) : coversRect (merge a b) a := by
  unfold coversRect merge; dsimp only; omega

theorem coversRect_merge_right (a b : Rect) : coversRect (merge a b) b := by
  unfold coversRect merge; dsimp only; omega

theorem mergeStep_covers_mem {acc : List Rect} {a : Rect} (h : a ∈ acc)
    (r : Rect) : ∃ a' ∈ mergeStep acc r, coversRect a' a := by
  induction acc with
  | nil => cases h
  | cons x rest ih =>
    unfold mergeStep
    by_cases hov : overlaps r x
    · simp only [if_pos hov]
      rcases List.mem_cons.mp h with rfl | hmem
      · exact ⟨merge a r, List.mem_cons_self _ _, coversRect_merge_left a r⟩
      · exact ⟨a, List.mem_cons_of_mem _ hmem, coversRect_refl a⟩
    · simp only [if_neg hov]
      rcases List.mem_cons.mp h with rfl | hmem
      · exact ⟨a, List.mem_cons_self _ _, coversRect_refl a⟩
      · obtain ⟨a', ha', hc'⟩ := ih hmem
        exact ⟨a', List.mem_cons_of_mem _ ha', hc'⟩

theorem mergeStep_covers_new (acc : List Rect) (r : Rect) :
    ∃ a' ∈ mergeStep acc r, coversRect a' r := by
  induction acc with
  | nil => exact ⟨r, List.mem_singleton.mpr rfl, coversRect_refl r⟩
  | cons x rest ih =>
    unfold mergeStep
    by_cases hov : overlaps r x
    · simp only [if_pos hov]
      exact ⟨merge x r, List.mem_cons_self _ _, coversRect_merge_right x r⟩
    · simp only [if_neg hov]
      obtain ⟨a', ha', hc'⟩ := ih
      exact ⟨a', List.mem_cons_of_mem _ ha', hc'⟩

theorem foldl_mergeStep_covers (l : List Rect) (acc : List Rect) (x : Rect)
    (h : (∃ a ∈ acc, coversRect a x) ∨ x ∈ l) :
    ∃ a ∈ l.foldl mergeStep acc, coversRect a x := by
  induction l generalizing acc with
  | nil => simpa using h.resolve_right (by simp)
  | cons r rest ih =>
    simp only [List.foldl_cons]
    rcases h with ⟨a, ha, hc⟩ | hx
    · obtain ⟨a', ha', hc'⟩ := mergeStep_covers_mem ha r
      exact ih _ (Or.inl ⟨a', ha', coversRect_trans hc' hc⟩)
    · rcases List.mem_cons.mp hx with rfl | hx'
      · obtain ⟨a', ha', hc'⟩ := mergeStep_covers_new acc x
        exact ih _ (Or.inl ⟨a', ha', hc'⟩)
      · exact ih _ (Or.inr hx')

/-! ## C1 -/

/-- C1, refuted: the reduction of `render_output` can leave two distinct
overlapping rectangles in its output.  On the input
`[(0,0)2×2, (3,0)2×2, (1,0)3×2]` (all inside the output, none contained in
another), the single merging pass merges the third rectangle into the
first, producing `(0,0)4×2`, which overlaps the untouched second rectangle
`(3,0)2×2`. -/
theorem c1_counterexample :
    reduce ⟨⟨0,0⟩,⟨10,10⟩⟩ [⟨⟨0,0⟩,⟨2,2⟩⟩, ⟨⟨3,0⟩,⟨2,2⟩⟩, ⟨⟨1,0⟩,⟨3,2⟩⟩]
      = [⟨⟨0,0⟩,⟨4,2⟩⟩, ⟨⟨3,0⟩,⟨2,2⟩⟩]
    ∧ (⟨⟨0,0⟩,⟨4,2⟩⟩ : Rect) ≠ ⟨⟨3,0⟩,⟨2,2⟩⟩
    ∧ overlaps ⟨⟨0,0⟩,⟨4,2⟩⟩ ⟨⟨3,0⟩,⟨2,2⟩⟩ := by
  refine ⟨by decide, by decide, by decide⟩

/-- C1, amended: the reduction step of `render_output` (dedup, drop
rectangles not overlapping the output or with non-positive width/height,
drop contained rectangles, then a *single* merging pass that merges each
rectangle into the first already-accumulated rectangle it overlaps)
produces a set in which every rectangle surviving the filtering stages is
covered by some output rectangle; the output set may however still contain
two distinct overlapping rectangles. -/
theorem c1_amended (outGeo : Rect) (l : List Rect) (r : Rect)
    (h : r ∈ preMerge outGeo l) :
    ∃ a ∈ reduce outGeo l, coversRect a r := by
  unfold reduce mergeFold
  exact foldl_mergeStep_covers _ _ _ (Or.inr h)

/-- Witness for `c1_amended` at a concrete input. -/
theorem c1_amended_witness :
    (⟨⟨3,0⟩,⟨2,2⟩⟩ : Rect) ∈
        preMerge ⟨⟨0,0⟩,⟨10,10⟩⟩ [⟨⟨0,0⟩,⟨2,2⟩⟩, ⟨⟨3,0⟩,⟨2,2⟩⟩, ⟨⟨1,0⟩,⟨3,2⟩⟩]
    ∧ ∃ a ∈ reduce ⟨⟨0,0⟩,⟨10,10⟩⟩ [⟨⟨0,0⟩,⟨2,2⟩⟩, ⟨⟨3,0⟩,⟨2,2⟩⟩, ⟨⟨1,0⟩,⟨3,2⟩⟩],
        coversRect a ⟨⟨3,0⟩,⟨2,2⟩⟩ :=
  ⟨by decide, c1_amended _ _ _ (by decide)⟩

/-! ## C4 -/

/-- C4: in `render_output`, if `age > 0` and the `old_damage` history holds
at least `age` prior entries, the history is truncated to exactly `age`
entries and the composed damage is the union of the new damage with all of
them; in every other case (in particular `age = 0`) the composed damage is
exactly the full output rectangle. -/
theorem c4_age_composition (age : Nat) (outGeo : Rect) (old : List (List Rect))
    (nd : List Rect) :
    (0 < age → age ≤ old.length →
      composeDamage age outGeo old nd = (nd ++ (old.take age).flatten, old.take age)
      ∧ (old.take age).length = age)
    ∧ ((age = 0 ∨ old.length < age) →
      composeDamage age outGeo old nd = ([outGeo], old)) := by
  constructor
  · intro h1 h2
    refine ⟨by simp [composeDamage, h1, h2], ?_⟩
    simp only [List.length_take]
    omega
  · intro h
    have hn : ¬ (0 < age ∧ age ≤ old.length) := by rcases h with h | h <;> omega
    simp [composeDamage, hn]

/-- Witness for `c4_age_composition`, exercising both branches at concrete
inputs. -/
theorem c4_age_composition_witness :
    (composeDamage 1 ⟨⟨0,0⟩,⟨8,6⟩⟩ [[⟨⟨1,1⟩,⟨2,2⟩⟩]] [⟨⟨0,0⟩,⟨1,1⟩⟩]
        = ([⟨⟨0,0⟩,⟨1,1⟩⟩] ++ ([[⟨⟨1,1⟩,⟨2,2⟩⟩]].take 1).flatten, [[⟨⟨1,1⟩,⟨2,2⟩⟩]].take 1)
      ∧ (([[⟨⟨1,1⟩,⟨2,2⟩⟩]] : List (List Rect)).take 1).length = 1)
    ∧ composeDamage 0 ⟨⟨0,0⟩,⟨8,6⟩⟩ [[⟨⟨1,1⟩,⟨2,2⟩⟩]] [⟨⟨0,0⟩,⟨1,1⟩⟩]
        = ([⟨⟨0,0⟩,⟨8,6⟩⟩], [[⟨⟨1,1⟩,⟨2,2⟩⟩]]) :=
  ⟨(c4_age_composition 1 _ _ _).1 one_pos (by decide),
   (c4_age_composition 0 _ _ _).2 (Or.inl rfl)⟩

/-! ## C2 -/

/-- C2, refuted: a window with *no* `last_state` entry does not get its new
rectangle added as damage — `old_geo.map(|g| g != geo).unwrap_or(false)` is
false for an absent entry, so such a window falls into the
accumulated-damage branch.  For a freshly appearing window with empty
accumulated damage the frame's new damage is empty, and in particular does
not contain the window's rectangle as the claim demands. -/
theorem c2_counterexample :
    newDamage ⟨[⟨1, true, ⟨⟨0,0⟩,⟨2,2⟩⟩, ⟨⟨0,0⟩,⟨2,2⟩⟩, [], [], ⟨0,0⟩, false, false⟩], []⟩
        ⟨1, some ⟨8,6⟩, ⟨0,0⟩, [], [], [], []⟩ = []
    ∧ windowRectWithPopups ⟨1, true, ⟨⟨0,0⟩,⟨2,2⟩⟩, ⟨⟨0,0⟩,⟨2,2⟩⟩, [], [], ⟨0,0⟩, false, false⟩
        ∉ newDamage ⟨[⟨1, true, ⟨⟨0,0⟩,⟨2,2⟩⟩, ⟨⟨0,0⟩,⟨2,2⟩⟩, [], [], ⟨0,0⟩, false, false⟩], []⟩
            ⟨1, some ⟨8,6⟩, ⟨0,0⟩, [], [], [], []⟩ := by
  refine ⟨by decide, by decide⟩

/-- C2, amended: in `render_output`'s per-entity damage step, for every
window or layer whose `last_state` entry is *present and different* from
its current rectangle (including popups), both the old and the new
rectangle are added as damage; for every entity whose entry is absent or
equal, only its self-reported accumulated damage, offset by its screen
location, is added. -/
theorem c2_amended (last : List (TId × Rect)) (w : WindowM) (l : LayerM) :
    (∀ og, lookupTid last (TId.xdg w.wid) = some og → og ≠ windowRectWithPopups w →
        windowDamage last w = [og, windowRectWithPopups w])
    ∧ (lookupTid last (TId.xdg w.wid) = none ∨
        lookupTid last (TId.xdg w.wid) = some (windowRectWithPopups w) →
        windowDamage last w = offsetDamage w.accDamage w.location)
    ∧ (∀ og, lookupTid last (TId.layer l.lid) = some og → og ≠ l.geo →
        layerDamage last l = [og, l.geo])
    ∧ (lookupTid last (TId.layer l.lid) = none ∨
        lookupTid last (TId.layer l.lid) = some l.geo →
        layerDamage last l = offsetDamage l.accDamage l.geo.loc) := by
  refine ⟨?_, ?_, ?_, ?_⟩
  · intro og h hne
    simp [windowDamage, h, hne]
  · intro h
    rcases h with h | h <;> simp [windowDamage, h]
  · intro og h hne
    simp [layerDamage, h, hne]
  · intro h
    rcases h with h | h <;> simp [layerDamage, h]

/-- Witness for `c2_amended`: a moved window contributes exactly its old
and new rectangles. -/
theorem c2_amended_witness :
    windowDamage [(TId.xdg 1, ⟨⟨9,9⟩,⟨2,2⟩⟩)]
        ⟨1, true, ⟨⟨0,0⟩,⟨2,2⟩⟩, ⟨⟨0,0⟩,⟨2,2⟩⟩, [], [], ⟨0,0⟩, false, false⟩
      = [⟨⟨9,9⟩,⟨2,2⟩⟩, windowRectWithPopups
          ⟨1, true, ⟨⟨0,0⟩,⟨2,2⟩⟩, ⟨⟨0,0⟩,⟨2,2⟩⟩, [], [], ⟨0,0⟩, false, false⟩] :=
  (c2_amended _ _ ⟨1, LKind.background, ⟨⟨0,0⟩,⟨1,1⟩⟩, [], false⟩).1 _ (by decide)
    (by decide)

/-! ## C3 -/

/-- C3, code bug: `map_window` on an already mapped window updates its
location and activates it (deactivating the sibling), but does *not* move
it to the top of the z-order — `IndexSet::insert` leaves an existing
element at its old position, contradicting the function's own doc comment
("Map window and moves it to top of the stack.  This can safely be called
on an already mapped window").  With windows `[1, 2]` mapped in that order,
re-mapping window 1 leaves the z-order `[1, 2]` instead of `[2, 1]`. -/
theorem c3_map_window_does_not_raise :
    ((mapWindow ⟨[⟨1, true, ⟨⟨0,0⟩,⟨2,2⟩⟩, ⟨⟨0,0⟩,⟨2,2⟩⟩, [], [], ⟨0,0⟩, false, false⟩,
                  ⟨2, true, ⟨⟨0,0⟩,⟨2,2⟩⟩, ⟨⟨0,0⟩,⟨2,2⟩⟩, [], [], ⟨1,1⟩, false, false⟩], []⟩
        ⟨1, true, ⟨⟨0,0⟩,⟨2,2⟩⟩, ⟨⟨0,0⟩,⟨2,2⟩⟩, [], [], ⟨0,0⟩, false, false⟩
        ⟨5,5⟩).windows.map (fun w => (w.wid, w.location, w.activated)))
      = [(1, (⟨5,5⟩ : Pt), true), (2, (⟨1,1⟩ : Pt), false)] := by decide

/-! ## C6 -/

/-- C6: whenever the reduced damage set computed by `render_output` is
empty, `render_output` returns `Ok(false)` and the renderer is not invoked:
the entire result is independent of the renderer's behaviour. -/
theorem c6_empty_damage_no_render (s : SpaceM) (o : OutputM) (age : Nat)
    (h : reducedDamage s o age = some []) (rfail rfail' : Option (Nat × Nat)) :
    (renderOutput s o age rfail).1 = Except.ok false
    ∧ renderOutput s o age rfail = renderOutput s o age rfail' := by
  cases hg : outputGeo o with
  | none => simp [reducedDamage, hg] at h
  | some g =>
    have hred : reduce g (composeDamage age g o.old_damage (newDamage s o)).1 = [] := by
      simpa [reducedDamage, hg] using h
    constructor
    · simp [renderOutput, hg, hred]
    · simp [renderOutput, hg, hred]

/-- Witness for `c6_empty_damage_no_render`: no windows or layers, age 1
with one (empty) history entry, so the reduced damage is empty; the result
does not depend on whether the renderer would fail. -/
theorem c6_empty_damage_no_render_witness :
    (renderOutput ⟨[], []⟩ ⟨1, some ⟨8,6⟩, ⟨0,0⟩, [], [], [[]], []⟩ 1 none).1
      = Except.ok false
    ∧ renderOutput ⟨[], []⟩ ⟨1, some ⟨8,6⟩, ⟨0,0⟩, [], [], [[]], []⟩ 1 none
      = renderOutput ⟨[], []⟩ ⟨1, some ⟨8,6⟩, ⟨0,0⟩, [], [], [[]], []⟩ 1 (some (0, 7)) :=
  c6_empty_damage_no_render _ _ _ (by decide) none (some (0, 7))

/-! ## C10 -/

/-- C10: whenever `render_output` returns `Ok(false)`, the output's
`last_state` map is unchanged, the frame's new damage is not pushed onto the
`old_damage` history, and no drawn flag is set — the space is returned
exactly as it was, and the only possible state change is truncation of the
`old_damage` history to `age` entries when `age > 0` and the history is
long enough. -/
theorem c10_ok_false_state (s : SpaceM) (o : OutputM) (age : Nat)
    (rfail : Option (Nat × Nat))
    (h : (renderOutput s o age rfail).1 = Except.ok false) :
    renderOutput s o age rfail
      = (Except.ok false, s,
         { o with old_damage :=
             if 0 < age ∧ age ≤ o.old_damage.length
             then o.old_damage.take age else o.old_damage }) := by
  cases hg : outputGeo o with
  | none => simp [renderOutput, hg] at h
  | some g =>
    by_cases hred : reduce g (composeDamage age g o.old_damage (newDamage s o)).1 = []
    · have h2 : (composeDamage age g o.old_damage (newDamage s o)).2
          = if 0 < age ∧ age ≤ o.old_damage.length
            then o.old_damage.take age else o.old_damage := by
        unfold composeDamage
        split <;> simp_all
      simp [renderOutput, hg, hred, h2]
    · cases rfail with
      | none => simp [renderOutput, hg, hred] at h
      | some ke => simp [renderOutput, hg, hred] at h

/-- Witness for `c10_ok_false_state` at a concrete no-damage render. -/
theorem c10_ok_false_state_witness :
    renderOutput ⟨[], []⟩ ⟨1, some ⟨8,6⟩, ⟨0,0⟩, [], [], [[]], []⟩ 1 (some (0, 7))
      = (Except.ok false, ⟨[], []⟩,
         { (⟨1, some ⟨8,6⟩, ⟨0,0⟩, [], [], [[]], []⟩ : OutputM) with
             old_damage :=
               if 0 < 1 ∧ 1 ≤ ([[]] : List (List Rect)).length
               then ([[]] : List (List Rect)).take 1 else [[]] }) :=
  c10_ok_false_state _ _ _ _ (by rfl)

/-! ## C5 -/

/-- C5: whenever the renderer fails during a render pass of
`render_output`, the output's `last_state` map and `old_damage` history are
both reset to empty, the error is returned wrapped as
`RenderError::Rendering`, and the space's window/output registries are left
unchanged (the windows — up to their `drawn` flags, which draws before the
failure may have set — and the mapped outputs are exactly as before). -/
theorem c5_render_failure (s : SpaceM) (o : OutputM) (age : Nat) (k e : Nat)
    (g : Rect) (hg : outputGeo o = some g)
    (hne : reduce g (composeDamage age g o.old_damage (newDamage s o)).1 ≠ []) :
    (renderOutput s o age (some (k, e))).1 = Except.error (RErr.rendering e)
    ∧ (renderOutput s o age (some (k, e))).2.2.last_state = []
    ∧ (renderOutput s o age (some (k, e))).2.2.old_damage = []
    ∧ (renderOutput s o age (some (k, e))).2.2.surfaces = o.surfaces
    ∧ (renderOutput s o age (some (k, e))).2.1.windows.map (fun w => { w with drawn := false })
        = s.windows.map (fun w => { w with drawn := false })
    ∧ (renderOutput s o age (some (k, e))).2.1.outputs = s.outputs := by
  refine ⟨?_, ?_, ?_, ?_, ?_, ?_⟩ <;>
    simp [renderOutput, hg, hne, markDrawn, List.map_map]
  intro w _
  split <;> simp

/-- Witness for `c5_render_failure`: failure with full-output damage
(age 0). -/
theorem c5_render_failure_witness :
    (renderOutput ⟨[], []⟩ ⟨1, some ⟨8,6⟩, ⟨0,0⟩, [], [], [], []⟩ 0 (some (0, 42))).1
        = Except.error (RErr.rendering 42)
    ∧ (renderOutput ⟨[], []⟩ ⟨1, some ⟨8,6⟩, ⟨0,0⟩, [], [], [], []⟩ 0 (some (0, 42))).2.2.last_state = []
    ∧ (renderOutput ⟨[], []⟩ ⟨1, some ⟨8,6⟩, ⟨0,0⟩, [], [], [], []⟩ 0 (some (0, 42))).2.2.old_damage = []
    ∧ (renderOutput ⟨[], []⟩ ⟨1, some ⟨8,6⟩, ⟨0,0⟩, [], [], [], []⟩ 0 (some (0, 42))).2.2.surfaces
        = ([] : List Nat)
    ∧ (renderOutput ⟨[], []⟩ ⟨1, some ⟨8,6⟩, ⟨0,0⟩, [], [], [], []⟩ 0 (some (0, 42))).2.1.windows.map
          (fun w => { w with drawn := false })
        = ([] : List WindowM).map (fun w => { w with drawn := false })
    ∧ (renderOutput ⟨[], []⟩ ⟨1, some ⟨8,6⟩, ⟨0,0⟩, [], [], [], []⟩ 0 (some (0, 42))).2.1.outputs
        = ([] : List OutputM) :=
  c5_render_failure ⟨[], []⟩ ⟨1, some ⟨8,6⟩, ⟨0,0⟩, [], [], [], []⟩ 0 0 42
    ⟨⟨0,0⟩,⟨8,6⟩⟩ (by decide) (by decide)

/-! ## C7 -/

theorem sendFramesWindows_false_fst (ws : List WindowM) :
    (sendFramesWindows false ws).1 = ws.map (fun w => { w with drawn := false }) := by
  induction ws with
  | nil => rfl
  | cons w ws ih => by_cases h : w.drawn <;> simp [sendFramesWindows, h, ih]

theorem sendFramesWindows_false_snd (ws : List WindowM) :
    (sendFramesWindows false ws).2
      = (ws.filter (fun w => w.drawn)).map (fun w => TId.xdg w.wid) := by
  induction ws with
  | nil => rfl
  | cons w ws ih => by_cases h : w.drawn <;> simp [sendFramesWindows, h, ih]

theorem sendFramesWindows_true (ws : List WindowM) :
    sendFramesWindows true ws = (ws, ws.map (fun w => TId.xdg w.wid)) := by
  induction ws with
  | nil => rfl
  | cons w ws ih => simp [sendFramesWindows, ih]

theorem sendFramesLayers_false_fst (ls : List LayerM) :
    (sendFramesLayers false ls).1 = ls.map (fun l => { l with drawn := false }) := by
  induction ls with
  | nil => rfl
  | cons l ls ih => by_cases h : l.drawn <;> simp [sendFramesLayers, h, ih]

theorem sendFramesLayers_false_snd (ls : List LayerM) :
    (sendFramesLayers false ls).2
      = (ls.filter (fun l => l.drawn)).map (fun l => TId.layer l.lid) := by
  induction ls with
  | nil => rfl
  | cons l ls ih => by_cases h : l.drawn <;> simp [sendFramesLayers, h, ih]

theorem sendFramesLayers_true (ls : List LayerM) :
    sendFramesLayers true ls = (ls, ls.map (fun l => TId.layer l.lid)) := by
  induction ls with
  | nil => rfl
  | cons l ls ih => simp [sendFramesLayers, ih]

/-- C7: `send_frames(false, t)` notifies exactly those windows and layers
whose space-scoped `drawn` flag is true, and afterwards every drawn flag in
the space is false; `send_frames(true, t)` notifies every window and every
layer regardless of drawn state.  Window and layer ids are assumed unique,
as they are for the id-allocated entities of the source. -/
theorem c7_send_frames (s : SpaceM)
    (hw : (s.windows.map (fun w => w.wid)).Nodup)
    (hl : ((s.outputs.flatMap (fun o => o.layers)).map (fun l => l.lid)).Nodup) :
    (∀ w ∈ s.windows, (TId.xdg w.wid ∈ (sendFrames s false).2 ↔ w.drawn = true))
    ∧ (∀ o ∈ s.outputs, ∀ l ∈ o.layers,
        (TId.layer l.lid ∈ (sendFrames s false).2 ↔ l.drawn = true))
    ∧ (∀ w ∈ (sendFrames s false).1.windows, w.drawn = false)
    ∧ (∀ o ∈ (sendFrames s false).1.outputs, ∀ l ∈ o.layers, l.drawn = false)
    ∧ (∀ w ∈ s.windows, TId.xdg w.wid ∈ (sendFrames s true).2)
    ∧ (∀ o ∈ s.outputs, ∀ l ∈ o.layers, TId.layer l.lid ∈ (sendFrames s true).2) := by
  refine ⟨?_, ?_, ?_, ?_, ?_, ?_⟩
  · intro w hwmem
    simp only [sendFrames, sendFramesWindows_false_snd, List.mem_append]
    constructor
    · rintro (hA | hB)
      · obtain ⟨w', hw', heq⟩ := List.mem_map.mp hA
        have : w'.wid = w.wid := by injection heq
        have hw'mem := List.mem_of_mem_filter hw'
        have := List.inj_on_of_nodup_map hw hw'mem hwmem this
        subst this
        exact List.of_mem_filter hw'
      · exfalso
        obtain ⟨o, _, hmem⟩ := List.mem_flatMap.mp hB
        rw [sendFramesLayers_false_snd] at hmem
        obtain ⟨l, _, heq⟩ := List.mem_map.mp hmem
        exact TId.noConfusion heq
    · intro hd
      exact Or.inl (List.mem_map_of_mem _ (List.mem_filter.mpr ⟨hwmem, hd⟩))
  · intro o homem l hlmem
    simp only [sendFrames, sendFramesWindows_false_snd, List.mem_append]
    constructor
    · rintro (hA | hB)
      · exfalso
        obtain ⟨w, _, heq⟩ := List.mem_map.mp hA
        exact TId.noConfusion heq
      · obtain ⟨o', ho', hmem⟩ := List.mem_flatMap.mp hB
        rw [sendFramesLayers_false_snd] at hmem
        obtain ⟨l', hl', heq⟩ := List.mem_map.mp hmem
        have hlid : l'.lid = l.lid := by injection heq
        have hl'flat : l' ∈ s.outputs.flatMap (fun o => o.layers) :=
          List.mem_flatMap.mpr ⟨o', ho', List.mem_of_mem_filter hl'⟩
        have hlflat : l ∈ s.outputs.flatMap (fun o => o.layers) :=
          List.mem_flatMap.mpr ⟨o, homem, hlmem⟩
        have := List.inj_on_of_nodup_map hl hl'flat hlflat hlid
        subst this
        exact List.of_mem_filter hl'
    · intro hd
      refine Or.inr (List.mem_flatMap.mpr ⟨o, homem, ?_⟩)
      rw [sendFramesLayers_false_snd]
      exact List.mem_map_of_mem _ (List.mem_filter.mpr ⟨hlmem, hd⟩)
  · intro w hwmem
    simp only [sendFrames, sendFramesWindows_false_fst] at hwmem
    obtain ⟨w', _, rfl⟩ := List.mem_map.mp hwmem
    rfl
  · intro o homem l hlmem
    simp only [sendFrames] at homem
    obtain ⟨o', _, rfl⟩ := List.mem_map.mp homem
    simp only [sendFramesLayers_false_fst] at hlmem
    obtain ⟨l', _, rfl⟩ := List.mem_map.mp hlmem
    rfl
  · intro w hwmem
    simp only [sendFrames, sendFramesWindows_true, List.mem_append]
    exact Or.inl (List.mem_map_of_mem _ hwmem)
  · intro o homem l hlmem
    simp only [sendFrames, List.mem_append]
    refine Or.inr (List.mem_flatMap.mpr ⟨o, homem, ?_⟩)
    rw [sendFramesLayers_true]
    exact List.mem_map_of_mem _ hlmem

/-- Witness for `c7_send_frames`: a drawn window in a one-window,
one-output space is notified by `send_frames(false, t)`. -/
theorem c7_send_frames_witness :
    TId.xdg 1 ∈ (sendFrames ⟨[⟨1, true, ⟨⟨0,0⟩,⟨2,2⟩⟩, ⟨⟨0,0⟩,⟨2,2⟩⟩, [], [], ⟨0,0⟩, true, false⟩],
        [⟨1, some ⟨8,6⟩, ⟨0,0⟩, [], [], [], [⟨5, LKind.top, ⟨⟨0,0⟩,⟨1,1⟩⟩, [], false⟩]⟩]⟩ false).2
    ↔ (⟨1, true, ⟨⟨0,0⟩,⟨2,2⟩⟩, ⟨⟨0,0⟩,⟨2,2⟩⟩, [], [], ⟨0,0⟩, true, false⟩ : WindowM).drawn = true :=
  (c7_send_frames ⟨[⟨1, true, ⟨⟨0,0⟩,⟨2,2⟩⟩, ⟨⟨0,0⟩,⟨2,2⟩⟩, [], [], ⟨0,0⟩, true, false⟩],
      [⟨1, some ⟨8,6⟩, ⟨0,0⟩, [], [], [], [⟨5, LKind.top, ⟨⟨0,0⟩,⟨1,1⟩⟩, [], false⟩]⟩]⟩
      (by decide) (by decide)).1
    ⟨1, true, ⟨⟨0,0⟩,⟨2,2⟩⟩, ⟨⟨0,0⟩,⟨2,2⟩⟩, [], [], ⟨0,0⟩, true, false⟩ (by decide)

/-! ## C9 -/

/-- C9: for every mapped window, `outputs_for_window` returns exactly the
mapped outputs whose geometry overlaps the window's rectangle (as a
permutation of the filtered output list), sorted in ascending order of
overlap area; for an unmapped window it returns the empty list.  Every
mapped output is assumed to have an active mode, since the source
`unwrap()`s the output geometry. -/
theorem c9_outputs_for_window (s : SpaceM) (w : WindowM)
    (hmode : ∀ o ∈ s.outputs, o.modeSize.isSome) :
    ((s.windows.any (fun v => v.wid == w.wid)) = false → outputsForWindow s w = [])
    ∧ ((s.windows.any (fun v => v.wid == w.wid)) = true →
        (outputsForWindow s w).Perm
          (s.outputs.filter (fun o => decide (overlaps (windowRect w) (outGeoD o)))))
    ∧ (outputsForWindow s w).Pairwise
        (fun o1 o2 => overlapArea (outGeoD o1) (windowRect w)
          ≤ overlapArea (outGeoD o2) (windowRect w)) := by
  refine ⟨?_, ?_, ?_⟩
  · intro h
    simp [outputsForWindow, h]
  · intro h
    simp only [outputsForWindow, h, not_true_eq_false, if_false]
    exact List.mergeSort_perm _ _
  · by_cases h : s.windows.any (fun v => v.wid == w.wid)
    · simp only [outputsForWindow, h, not_true_eq_false, if_false]
      have hs := @List.sorted_mergeSort OutputM
        (fun o1 o2 => decide (overlapArea (outGeoD o1) (windowRect w)
          ≤ overlapArea (outGeoD o2) (windowRect w)))
        (fun a b c hab hbc => by
          simp only [decide_eq_true_eq] at *
          exact le_trans hab hbc)
        (fun a b => by
          simp only [Bool.or_eq_true, decide_eq_true_eq]
          exact le_total _ _)
        (s.outputs.filter (fun o => decide (overlaps (windowRect w) (outGeoD o))))
      exact hs.imp (fun hab => of_decide_eq_true hab)
    · simp [outputsForWindow, h]

/-- Witness for `c9_outputs_for_window`: one window overlapping two
outputs. -/
theorem c9_outputs_for_window_witness :
    ((outputsForWindow
        ⟨[⟨1, true, ⟨⟨0,0⟩,⟨4,4⟩⟩, ⟨⟨0,0⟩,⟨4,4⟩⟩, [], [], ⟨0,0⟩, false, false⟩],
         [⟨1, some ⟨8,6⟩, ⟨0,0⟩, [], [], [], []⟩, ⟨2, some ⟨8,6⟩, ⟨3,0⟩, [], [], [], []⟩]⟩
        ⟨1, true, ⟨⟨0,0⟩,⟨4,4⟩⟩, ⟨⟨0,0⟩,⟨4,4⟩⟩, [], [], ⟨0,0⟩, false, false⟩).Perm
      (([⟨1, some ⟨8,6⟩, ⟨0,0⟩, [], [], [], []⟩, ⟨2, some ⟨8,6⟩, ⟨3,0⟩, [], [], [], []⟩] :
          List OutputM).filter (fun o => decide (overlaps
            (windowRect ⟨1, true, ⟨⟨0,0⟩,⟨4,4⟩⟩, ⟨⟨0,0⟩,⟨4,4⟩⟩, [], [], ⟨0,0⟩, false, false⟩)
            (outGeoD o)))))
    ∧ (outputsForWindow
        ⟨[⟨1, true, ⟨⟨0,0⟩,⟨4,4⟩⟩, ⟨⟨0,0⟩,⟨4,4⟩⟩, [], [], ⟨0,0⟩, false, false⟩],
         [⟨1, some ⟨8,6⟩, ⟨0,0⟩, [], [], [], []⟩, ⟨2, some ⟨8,6⟩, ⟨3,0⟩, [], [], [], []⟩]⟩
        ⟨1, true, ⟨⟨0,0⟩,⟨4,4⟩⟩, ⟨⟨0,0⟩,⟨4,4⟩⟩, [], [], ⟨0,0⟩, false, false⟩).Pairwise
        (fun o1 o2 => overlapArea (outGeoD o1)
            (windowRect ⟨1, true, ⟨⟨0,0⟩,⟨4,4⟩⟩, ⟨⟨0,0⟩,⟨4,4⟩⟩, [], [], ⟨0,0⟩, false, false⟩)
          ≤ overlapArea (outGeoD o2)
            (windowRect ⟨1, true, ⟨⟨0,0⟩,⟨4,4⟩⟩, ⟨⟨0,0⟩,⟨4,4⟩⟩, [], [], ⟨0,0⟩, false, false⟩)) :=
  ⟨(c9_outputs_for_window _ _ (by decide)).2.1 (by decide),
   (c9_outputs_for_window
      ⟨[⟨1, true, ⟨⟨0,0⟩,⟨4,4⟩⟩, ⟨⟨0,0⟩,⟨4,4⟩⟩, [], [], ⟨0,0⟩, false, false⟩],
       [⟨1, some ⟨8,6⟩, ⟨0,0⟩, [], [], [], []⟩, ⟨2, some ⟨8,6⟩, ⟨3,0⟩, [], [], [], []⟩]⟩
      ⟨1, true, ⟨⟨0,0⟩,⟨4,4⟩⟩, ⟨⟨0,0⟩,⟨4,4⟩⟩, [], [], ⟨0,0⟩, false, false⟩ (by decide)).2.2⟩

/-! ## C8 -/

theorem leaveIfEntered_fst_subset {oid : Nat} {acc : List Nat × List Ev} {x y : Nat}
    (h : y ∈ (leaveIfEntered oid acc x).1) : y ∈ acc.1 := by
  unfold leaveIfEntered at h
  split at h
  · exact List.mem_of_mem_filter h
  · exact h

theorem leaveIfEntered_not_mem (oid : Nat) (acc : List Nat × List Ev) (x : Nat) :
    x ∉ (leaveIfEntered oid acc x).1 := by
  unfold leaveIfEntered
  split
  · intro h
    simpa using List.of_mem_filter h
  · assumption

theorem leaveIfEntered_mem_iff {oid : Nat} (acc : List Nat × List Ev) {x y : Nat}
    (h : y ≠ x) : y ∈ (leaveIfEntered oid acc x).1 ↔ y ∈ acc.1 := by
  unfold leaveIfEntered
  split
  · simp [List.mem_filter, h]
  · exact Iff.rfl

theorem leaveIfEntered_events_mono {oid : Nat} {acc : List Nat × List Ev} {x : Nat}
    {e : Ev} (h : e ∈ acc.2) : e ∈ (leaveIfEntered oid acc x).2 := by
  unfold leaveIfEntered
  split
  · exact List.mem_append_left _ h
  · exact h

theorem leaveIfEntered_emits {oid : Nat} {acc : List Nat × List Ev} {x : Nat}
    (h : x ∈ acc.1) : Ev.leave oid x ∈ (leaveIfEntered oid acc x).2 := by
  unfold leaveIfEntered
  rw [if_pos h]
  exact List.mem_append_right _ (List.mem_singleton.mpr rfl)

theorem processSurface_fst_mem_iff {oid : Nat} {g : Rect} {p : Pt}
    (acc : List Nat × List Ev) (sf : SurfM) {y : Nat} (h : y ≠ sf.sid) :
    y ∈ (processSurface oid g p acc sf).1 ↔ y ∈ acc.1 := by
  unfold processSurface
  cases sf.size with
  | none => exact leaveIfEntered_mem_iff acc h
  | some sz =>
    dsimp only
    split
    · split
      · exact Iff.rfl
      · simp [h]
    · exact leaveIfEntered_mem_iff acc h

theorem processSurface_events_mono {oid : Nat} {g : Rect} {p : Pt}
    {acc : List Nat × List Ev} {sf : SurfM} {e : Ev} (h : e ∈ acc.2) :
    e ∈ (processSurface oid g p acc sf).2 := by
  unfold processSurface
  cases sf.size with
  | none => exact leaveIfEntered_events_mono h
  | some sz =>
    dsimp only
    split
    · split
      · exact h
      · exact List.mem_append_left _ h
    · exact leaveIfEntered_events_mono h

theorem foldl_leave_fst_subset (oid : Nat) (sids : List Nat) :
    ∀ (acc : List Nat × List Ev) {y : Nat},
      y ∈ (sids.foldl (leaveIfEntered oid) acc).1 → y ∈ acc.1 := by
  induction sids with
  | nil => intro acc y h; exact h
  | cons a rest ih =>
    intro acc y h
    exact leaveIfEntered_fst_subset (ih _ h)

theorem foldl_leave_not_mem (oid : Nat) {sids : List Nat} {x : Nat}
    (hx : x ∈ sids) : ∀ (acc : List Nat × List Ev),
      x ∉ (sids.foldl (leaveIfEntered oid) acc).1 := by
  induction sids with
  | nil => cases hx
  | cons a rest ih =>
    intro acc
    by_cases hax : x = a
    · subst hax
      intro h
      exact leaveIfEntered_not_mem oid acc x (foldl_leave_fst_subset oid rest _ h)
    · exact ih ((List.mem_cons.mp hx).resolve_left hax) _

theorem foldl_leave_mem_iff (oid : Nat) {sids : List Nat} {y : Nat}
    (hy : y ∉ sids) : ∀ (acc : List Nat × List Ev),
      (y ∈ (sids.foldl (leaveIfEntered oid) acc).1 ↔ y ∈ acc.1) := by
  induction sids with
  | nil => intro acc; exact Iff.rfl
  | cons a rest ih =>
    intro acc
    have hya : y ≠ a := fun h => hy (h ▸ List.mem_cons_self a rest)
    have hyr : y ∉ rest := fun h => hy (List.mem_cons_of_mem _ h)
    exact (ih hyr _).trans (leaveIfEntered_mem_iff acc hya)

theorem foldl_leave_events_mono (oid : Nat) (sids : List Nat) :
    ∀ (acc : List Nat × List Ev) {e : Ev},
      e ∈ acc.2 → e ∈ (sids.foldl (leaveIfEntered oid) acc).2 := by
  induction sids with
  | nil => intro acc e h; exact h
  | cons a rest ih =>
    intro acc e h
    exact ih _ (leaveIfEntered_events_mono h)

theorem foldl_leave_emits (oid : Nat) {sids : List Nat} {x : Nat}
    (hx : x ∈ sids) : ∀ (acc : List Nat × List Ev), x ∈ acc.1 →
      Ev.leave oid x ∈ (sids.foldl (leaveIfEntered oid) acc).2 := by
  induction sids with
  | nil => cases hx
  | cons a rest ih =>
    intro acc hin
    by_cases hax : x = a
    · subst hax
      exact foldl_leave_events_mono oid rest _ (leaveIfEntered_emits hin)
    · exact ih ((List.mem_cons.mp hx).resolve_left hax) _
        ((leaveIfEntered_mem_iff acc hax).mpr hin)

theorem foldl_ps_mem_iff (oid : Nat) (g : Rect) (p : Pt) {l : List SurfM}
    {y : Nat} (h : ∀ sf ∈ l, sf.sid ≠ y) : ∀ (acc : List Nat × List Ev),
      (y ∈ (l.foldl (processSurface oid g p) acc).1 ↔ y ∈ acc.1) := by
  induction l with
  | nil => intro acc; exact Iff.rfl
  | cons sf rest ih =>
    intro acc
    have h1 : y ≠ sf.sid := (h sf (List.mem_cons_self _ _)).symm
    have h2 : ∀ s ∈ rest, s.sid ≠ y := fun s hs => h s (List.mem_cons_of_mem _ hs)
    exact (ih h2 _).trans (processSurface_fst_mem_iff acc sf h1)

theorem foldl_ps_events_mono (oid : Nat) (g : Rect) (p : Pt) (l : List SurfM) :
    ∀ (acc : List Nat × List Ev) {e : Ev},
      e ∈ acc.2 → e ∈ (l.foldl (processSurface oid g p) acc).2 := by
  induction l with
  | nil => intro acc e h; exact h
  | cons sf rest ih =>
    intro acc e h
    exact ih _ (processSurface_events_mono h)

theorem stepWindowOutput_shape (w : WindowM) (o : OutputM) :
    ∃ ss evs, stepWindowOutput w o = ({ o with surfaces := ss }, evs) := by
  unfold stepWindowOutput
  dsimp only
  split
  · exact ⟨_, _, rfl⟩
  · exact ⟨_, _, rfl⟩

theorem stepWindowOutput_outGeoD (w : WindowM) (o : OutputM) :
    outGeoD (stepWindowOutput w o).1 = outGeoD o := by
  obtain ⟨ss, evs, h⟩ := stepWindowOutput_shape w o
  rw [h]
  rfl

theorem stepWindowOutput_oid (w : WindowM) (o : OutputM) :
    (stepWindowOutput w o).1.oid = o.oid := by
  obtain ⟨ss, evs, h⟩ := stepWindowOutput_shape w o
  rw [h]

theorem stepWindowOutput_mem_iff {w' : WindowM} (o : OutputM) {y : Nat}
    (h : ∀ sf ∈ w'.surfaces, sf.sid ≠ y) :
    (y ∈ (stepWindowOutput w' o).1.surfaces ↔ y ∈ o.surfaces) := by
  unfold stepWindowOutput
  dsimp only
  split
  · have hy : y ∉ w'.surfaces.map (fun sf => sf.sid) := by
      intro hmem
      obtain ⟨sf, hsf, heq⟩ := List.mem_map.mp hmem
      exact h sf hsf heq
    exact foldl_leave_mem_iff o.oid hy _
  · have h2 : ∀ sf ∈ w'.surfaces.filter (fun sf => sf.underMapped), sf.sid ≠ y :=
      fun sf hsf => h sf (List.mem_of_mem_filter hsf)
    exact foldl_ps_mem_iff o.oid _ _ h2 _

theorem stepWindowOutput_noov_not_mem {w : WindowM} {o : OutputM}
    (hnov : ¬ overlaps (outGeoD o) (windowRect w)) {sf : SurfM}
    (hsf : sf ∈ w.surfaces) : sf.sid ∉ (stepWindowOutput w o).1.surfaces := by
  unfold stepWindowOutput
  dsimp only
  rw [if_pos hnov]
  exact foldl_leave_not_mem o.oid (List.mem_map_of_mem _ hsf) _

theorem stepWindowOutput_noov_emits {w : WindowM} {o : OutputM}
    (hnov : ¬ overlaps (outGeoD o) (windowRect w)) {sf : SurfM}
    (hsf : sf ∈ w.surfaces) (hin : sf.sid ∈ o.surfaces) :
    Ev.leave o.oid sf.sid ∈ (stepWindowOutput w o).2 := by
  unfold stepWindowOutput
  dsimp only
  rw [if_pos hnov]
  exact foldl_leave_emits o.oid (List.mem_map_of_mem _ hsf) _ hin

theorem applyWindows_append (ws1 ws2 : List WindowM) (o : OutputM) :
    applyWindows (ws1 ++ ws2) o = applyWindows ws2 (applyWindows ws1 o) := by
  simp [applyWindows, List.foldl_append]

theorem applyWindows_outGeoD (ws : List WindowM) : ∀ (o : OutputM),
    outGeoD (applyWindows ws o) = outGeoD o := by
  induction ws with
  | nil => intro o; rfl
  | cons w ws ih =>
    intro o
    exact (ih _).trans (stepWindowOutput_outGeoD w o)

theorem applyWindows_oid (ws : List WindowM) : ∀ (o : OutputM),
    (applyWindows ws o).oid = o.oid := by
  induction ws with
  | nil => intro o; rfl
  | cons w ws ih =>
    intro o
    exact (ih _).trans (stepWindowOutput_oid w o)

theorem applyWindows_mem_iff {ws : List WindowM} {y : Nat}
    (h : ∀ w ∈ ws, ∀ sf ∈ w.surfaces, sf.sid ≠ y) : ∀ (o : OutputM),
    (y ∈ (applyWindows ws o).surfaces ↔ y ∈ o.surfaces) := by
  induction ws with
  | nil => intro o; exact Iff.rfl
  | cons w ws ih =>
    intro o
    have h1 : ∀ sf ∈ w.surfaces, sf.sid ≠ y := h w (List.mem_cons_self _ _)
    have h2 : ∀ w' ∈ ws, ∀ sf ∈ w'.surfaces, sf.sid ≠ y :=
      fun w' hw' => h w' (List.mem_cons_of_mem _ hw')
    exact (ih h2 _).trans (stepWindowOutput_mem_iff o h1)

theorem foldl_stepWindow_fst (ws : List WindowM) :
    ∀ (outs : List OutputM) (evs : List Ev),
      (ws.foldl stepWindow (outs, evs)).1 = outs.map (applyWindows ws) := by
  induction ws with
  | nil =>
    intro outs evs
    exact (List.map_congr_left (fun o _ => rfl)).symm.trans (List.map_id outs) |>.symm
  | cons w ws ih =>
    intro outs evs
    simp only [List.foldl_cons]
    have hstep : stepWindow (outs, evs) w
        = ((outs.map (stepWindowOutput w)).map Prod.fst,
           evs ++ ((outs.map (stepWindowOutput w)).map Prod.snd).flatten) := rfl
    rw [hstep, ih, List.map_map, List.map_map]
    exact List.map_congr_left (fun o _ => rfl)

theorem foldl_stepWindow_events_mono (ws : List WindowM) :
    ∀ (acc : List OutputM × List Ev) {e : Ev},
      e ∈ acc.2 → e ∈ (ws.foldl stepWindow acc).2 := by
  induction ws with
  | nil => intro acc e h; exact h
  | cons w ws ih =>
    intro acc e h
    exact ih _ (List.mem_append_left _ h)

theorem stepWindow_events_mem {acc : List OutputM × List Ev} {w : WindowM}
    {o1 : OutputM} {e : Ev} (ho1 : o1 ∈ acc.1)
    (he : e ∈ (stepWindowOutput w o1).2) : e ∈ (stepWindow acc w).2 := by
  simp only [stepWindow, List.map_map]
  apply List.mem_append_right
  exact List.mem_flatten.mpr
    ⟨(stepWindowOutput w o1).2, List.mem_map_of_mem _ ho1, he⟩

/-- C8: for every mapped (live) window whose rectangle does not overlap a
mapped output's geometry, `refresh()` sends a leave notification for each
leaf surface of that window currently recorded in that output's `surfaces`
set, and afterwards no surface of that window remains entered on that
output.  Window, output and surface ids are assumed unique (surface trees
of distinct windows are disjoint), and the window's surfaces alive (a dead
surface is pruned from the set silently, without a leave event). -/
theorem c8_refresh_outside_output_leaves (s : SpaceM) (sAlive : Nat → Bool)
    (w : WindowM) (o : OutputM)
    (hw : w ∈ s.windows) (halive : w.alive = true)
    (hwid : (s.windows.map (fun v => v.wid)).Nodup)
    (ho : o ∈ s.outputs)
    (hoid : (s.outputs.map (fun v => v.oid)).Nodup)
    (hnov : ¬ overlaps (outGeoD o) (windowRect w))
    (hdisj : ∀ w' ∈ s.windows, w'.wid ≠ w.wid →
        ∀ sf' ∈ w'.surfaces, ∀ sf ∈ w.surfaces, sf'.sid ≠ sf.sid)
    (hsal : ∀ sf ∈ w.surfaces, sAlive sf.sid = true) :
    (∀ sf ∈ w.surfaces, sf.sid ∈ o.surfaces →
        Ev.leave o.oid sf.sid ∈ (refresh sAlive s).2)
    ∧ (∀ o' ∈ (refresh sAlive s).1.outputs, o'.oid = o.oid →
        ∀ sf ∈ w.surfaces, sf.sid ∉ o'.surfaces) := by
  obtain ⟨ws1, ws2, hsplit⟩ := List.append_of_mem hw
  have hwid' := hwid
  rw [hsplit, List.map_append, List.map_cons] at hwid'
  have hpair := List.nodup_append.mp hwid'
  have hne1 : ∀ w' ∈ ws1, w'.wid ≠ w.wid := by
    intro w' hw' heq
    refine hpair.2.2 (List.mem_map_of_mem _ hw') ?_
    rw [heq]
    exact List.mem_cons_self _ _
  have hne2 : ∀ w' ∈ ws2, w'.wid ≠ w.wid := by
    intro w' hw' heq
    have hcons := List.nodup_cons.mp hpair.2.1
    refine hcons.1 ?_
    rw [← heq]
    exact List.mem_map_of_mem _ hw'
  have hmem1 : ∀ w' ∈ ws1, w' ∈ s.windows := by
    intro w' hw'
    rw [hsplit]
    exact List.mem_append_left _ hw'
  have hmem2 : ∀ w' ∈ ws2, w' ∈ s.windows := by
    intro w' hw'
    rw [hsplit]
    exact List.mem_append_right _ (List.mem_cons_of_mem _ hw')
  set ws1' := ws1.filter (fun w => w.alive) with hws1'
  set ws2' := ws2.filter (fun w => w.alive) with hws2'
  have hfil : s.windows.filter (fun w => w.alive) = ws1' ++ w :: ws2' := by
    rw [hsplit, List.filter_append, List.filter_cons, if_pos halive]
  have hd1 : ∀ sf ∈ w.surfaces,
      ∀ w' ∈ ws1', ∀ sf' ∈ w'.surfaces, sf'.sid ≠ sf.sid := by
    intro sf hsf w' hw' sf' hsf'
    exact hdisj w' (hmem1 w' (List.mem_of_mem_filter hw'))
      (hne1 w' (List.mem_of_mem_filter hw')) sf' hsf' sf hsf
  have hd2 : ∀ sf ∈ w.surfaces,
      ∀ w' ∈ ws2', ∀ sf' ∈ w'.surfaces, sf'.sid ≠ sf.sid := by
    intro sf hsf w' hw' sf' hsf'
    exact hdisj w' (hmem2 w' (List.mem_of_mem_filter hw'))
      (hne2 w' (List.mem_of_mem_filter hw')) sf' hsf' sf hsf
  set outsF := s.outputs.map (fun o =>
    { o with surfaces := o.surfaces.filter sAlive }) with houtsF
  set o0 : OutputM := { o with surfaces := o.surfaces.filter sAlive } with ho0
  have ho0mem : o0 ∈ outsF := by
    rw [houtsF, ho0]
    exact List.mem_map_of_mem _ ho
  set o1 : OutputM := applyWindows ws1' o0 with ho1
  have hnov1 : ¬ overlaps (outGeoD o1) (windowRect w) := by
    rw [ho1, applyWindows_outGeoD]
    exact hnov
  have hoid1 : o1.oid = o.oid := by
    rw [ho1, applyWindows_oid]
  have hrefresh1 : (refresh sAlive s).2
      = ((s.windows.filter (fun w => w.alive)).foldl stepWindow (outsF, [])).2 := rfl
  have hrefresh2 : (refresh sAlive s).1.outputs
      = ((s.windows.filter (fun w => w.alive)).foldl stepWindow (outsF, [])).1 := rfl
  constructor
  · intro sf hsf hin
    have hin0 : sf.sid ∈ o0.surfaces := List.mem_filter.mpr ⟨hin, hsal sf hsf⟩
    have hin1 : sf.sid ∈ o1.surfaces := by
      rw [ho1]
      exact (applyWindows_mem_iff (hd1 sf hsf) o0).mpr hin0
    have hev : Ev.leave o.oid sf.sid ∈ (stepWindowOutput w o1).2 := by
      rw [← hoid1]
      exact stepWindowOutput_noov_emits hnov1 hsf hin1
    rw [hrefresh1, hfil, List.foldl_append, List.foldl_cons]
    have ho1mem : o1 ∈ (ws1'.foldl stepWindow (outsF, [])).1 := by
      rw [foldl_stepWindow_fst, ho1]
      exact List.mem_map_of_mem _ ho0mem
    exact foldl_stepWindow_events_mono _ _ (stepWindow_events_mem ho1mem hev)
  · intro o' ho' hoeq sf hsf
    rw [hrefresh2, hfil, foldl_stepWindow_fst] at ho'
    obtain ⟨oo0, hoo0, hoo0'⟩ := List.mem_map.mp ho'
    obtain ⟨oo, hoo, hooeq⟩ := List.mem_map.mp hoo0
    have hoideq : oo.oid = o.oid := by
      have h1 : o'.oid = oo0.oid := by
        rw [← hoo0', applyWindows_oid]
      have h2 : oo0.oid = oo.oid := by
        rw [← hooeq]
      rw [← h2, ← h1, hoeq]
    have : oo = o := List.inj_on_of_nodup_map hoid hoo ho hoideq
    subst this
    rw [← hooeq] at hoo0'
    rw [show ({ oo with surfaces := oo.surfaces.filter sAlive } : OutputM) = o0 from rfl]
      at hoo0'
    rw [applyWindows_append] at hoo0'
    rw [show applyWindows (w :: ws2') (applyWindows ws1' o0)
        = applyWindows ws2' (stepWindowOutput w o1).1 from rfl] at hoo0'
    intro hmem
    rw [← hoo0'] at hmem
    exact stepWindowOutput_noov_not_mem hnov1 hsf
      ((applyWindows_mem_iff (hd2 sf hsf) _).mp hmem)

/-- Witness for `c8_refresh_outside_output_leaves`: a window at (100,100)
fully outside an 8×6 output at the origin, with its surface 7 recorded as
entered, receives a leave event for it. -/
theorem c8_refresh_witness :
    Ev.leave 1 7 ∈ (refresh (fun _ => true)
      ⟨[⟨1, true, ⟨⟨0,0⟩,⟨2,2⟩⟩, ⟨⟨0,0⟩,⟨2,2⟩⟩, [], [⟨7, some ⟨1,1⟩, ⟨0,0⟩, true⟩],
          ⟨100,100⟩, false, false⟩],
       [⟨1, some ⟨8,6⟩, ⟨0,0⟩, [7], [], [], []⟩]⟩).2 :=
  (c8_refresh_outside_output_leaves
      ⟨[⟨1, true, ⟨⟨0,0⟩,⟨2,2⟩⟩, ⟨⟨0,0⟩,⟨2,2⟩⟩, [], [⟨7, some ⟨1,1⟩, ⟨0,0⟩, true⟩],
          ⟨100,100⟩, false, false⟩],
       [⟨1, some ⟨8,6⟩, ⟨0,0⟩, [7], [], [], []⟩]⟩
      (fun _ => true)
      ⟨1, true, ⟨⟨0,0⟩,⟨2,2⟩⟩, ⟨⟨0,0⟩,⟨2,2⟩⟩, [], [⟨7, some ⟨1,1⟩, ⟨0,0⟩, true⟩],
        ⟨100,100⟩, false, false⟩
      ⟨1, some ⟨8,6⟩, ⟨0,0⟩, [7], [], [], []⟩
      (by decide) rfl (by decide) (by decide) (by decide) (by decide)
      (by decide) (by decide)).1
    ⟨7, some ⟨1,1⟩, ⟨0,0⟩, true⟩ (by decide) (by decide)


end Smithay
